import Mathlib

/-!
Shallow embedding of the `backtest-engine` Rust crate (portfolio accounting,
execution simulator, latency queue, engine loop, RSI indicator, Sortino
metric), with theorems settling the claims about it.

Modelling conventions:
* `f64` values are modelled as `ℚ` (the claims under study are about exact
  arithmetic relationships, not floating-point rounding); `f64::sqrt` is
  modelled as an abstract function parameter `rt : ℚ → ℚ`.
* `chrono::DateTime<Utc>` timestamps are modelled as `ℤ`.
* Randomness (`rand::Rng` draws) is modelled by explicit oracle values:
  each `gen::<f64>()` / `gen_range` call reads a field of an `ExecDraws`
  record, so theorems quantify over all outcomes of the draws.
* `&mut self` methods become pure state-passing functions.
-/

namespace Backtest

/-- Position side (`common::PositionSide`). -/
inductive PositionSide
  | Long
  | Short
  | Hedge
deriving DecidableEq

/-- Trade side (`common::Side`). -/
inductive Side
  | Buy
  | Sell
  | Short
  | Cover
  | HedgeBuy
  | HedgeSell
deriving DecidableEq

/-- Signal type (`common::SignalType`). -/
inductive SignalType
  | Buy
  | Sell
  | Short
  | Cover
  | HedgeBuy
  | HedgeSell
  | Hold
deriving DecidableEq

/-- OHLCV bar (`common::Bar`); `open` is a Lean keyword, hence `open_price`. -/
structure Bar where
  timestamp : ℤ
  open_price : ℚ
  high : ℚ
  low : ℚ
  close : ℚ
  volume : ℕ
  vwap : Option ℚ
deriving DecidableEq

/-- Position record (`common::Position`). -/
structure Position where
  symbol : String
  quantity : ℚ
  avg_entry_price : ℚ
  entry_date : ℤ
  current_price : ℚ
  side : PositionSide
  stop_loss_price : Option ℚ
deriving DecidableEq

/-- Closed-trade record (`common::Trade`). -/
structure Trade where
  entry_date : ℤ
  entry_price : ℚ
  exit_date : Option ℤ
  exit_price : Option ℚ
  quantity : ℚ
  side : Side
  pnl : ℚ
  pnl_pct : ℚ
  holding_days : ℤ
  entry_reason : String
  exit_reason : String
deriving DecidableEq

/-- Error taxonomy (`common::BacktestError`), restricted to the variants the
portfolio can surface. -/
inductive BacktestError
  | InsufficientCash (required available : ℚ)
  | NoPositionToClose
  | PositionAlreadyExists (symbol : String)
deriving DecidableEq

/-- Portfolio state (`Portfolio` in `portfolio.rs`). -/
structure Portfolio where
  initial_capital : ℚ
  cash : ℚ
  position : Option Position
  hedge_position : Option Position
  realized_pnl : ℚ
  trades : List Trade
deriving DecidableEq

/-- `Portfolio::new`. -/
def Portfolio.new (initial_capital : ℚ) : Portfolio :=
  { initial_capital := initial_capital
    cash := initial_capital
    position := none
    hedge_position := none
    realized_pnl := 0
    trades := [] }

/-- `Portfolio::position_value`. -/
def Portfolio.position_value (p : Portfolio) : ℚ :=
  match p.position with
  | some pos => pos.quantity * pos.current_price
  | none => 0

/-- `Portfolio::hedge_position_value`. -/
def Portfolio.hedge_position_value (p : Portfolio) : ℚ :=
  match p.hedge_position with
  | some pos => pos.quantity * pos.current_price
  | none => 0

/-- `Portfolio::equity`. -/
def Portfolio.equity (p : Portfolio) : ℚ :=
  p.cash + p.position_value + p.hedge_position_value

/-- `Portfolio::has_position`. -/
def Portfolio.has_position (p : Portfolio) : Bool :=
  p.position.isSome

/-- `Portfolio::has_hedge_position`. -/
def Portfolio.has_hedge_position (p : Portfolio) : Bool :=
  p.hedge_position.isSome

/-- `Portfolio::update_prices`. -/
def Portfolio.update_prices (p : Portfolio) (main_price : ℚ)
    (hedge_price : Option ℚ) : Portfolio :=
  let p1 :=
    match p.position with
    | some pos => { p with position := some { pos with current_price := main_price } }
    | none => p
  match p1.hedge_position, hedge_price with
  | some pos, some price =>
      { p1 with hedge_position := some { pos with current_price := price } }
  | _, _ => p1

/-- `Portfolio::open_position`.  The Rust method mutates `self` and returns
`Result<()>`; here it returns the updated portfolio on success.  The error
return happens before any mutation in the source, so returning the bare
error leaves the caller's state untouched. -/
def Portfolio.open_position (p : Portfolio) (symbol : String)
    (quantity price : ℚ) (side : PositionSide) (timestamp : ℤ)
    (stop_loss_price : Option ℚ) (commission : ℚ) :
    Except BacktestError Portfolio :=
  let cost := quantity * price + commission
  if cost > p.cash then
    .error (.InsufficientCash cost p.cash)
  else
    let pos : Position :=
      { symbol := symbol
        quantity := quantity
        avg_entry_price := price
        entry_date := timestamp
        current_price := price
        side := side
        stop_loss_price := stop_loss_price }
    let p1 := { p with cash := p.cash - cost }
    match side with
    | .Hedge => .ok { p1 with hedge_position := some pos }
    | _ => .ok { p1 with position := some pos }

/-- `Portfolio::close_position_internal`. -/
def Portfolio.close_position_internal (p : Portfolio) (position : Position)
    (price : ℚ) (timestamp : ℤ) (reason : String) (commission : ℚ) :
    Portfolio × Trade :=
  let proceeds := position.quantity * price - commission
  let cost_basis := position.quantity * position.avg_entry_price
  let pnl :=
    match position.side with
    | .Short => cost_basis - proceeds
    | _ => proceeds - cost_basis
  let exit_side :=
    match position.side with
    | .Long => Side.Sell
    | .Short => Side.Cover
    | .Hedge => Side.HedgeSell
  let holding_days := timestamp - position.entry_date
  let trade : Trade :=
    { entry_date := position.entry_date
      entry_price := position.avg_entry_price
      exit_date := some timestamp
      exit_price := some price
      quantity := position.quantity
      side := exit_side
      pnl := pnl
      pnl_pct := if cost_basis > 0 then pnl / cost_basis * 100 else 0
      holding_days := holding_days
      entry_reason := ""
      exit_reason := reason }
  ({ p with
      cash := p.cash + proceeds
      realized_pnl := p.realized_pnl + pnl
      trades := p.trades ++ [trade] }, trade)

/-- `Portfolio::close_position` (no-op returning `None` when the slot is
empty, mirroring `self.position.take()?`). -/
def Portfolio.close_position (p : Portfolio) (price : ℚ) (timestamp : ℤ)
    (reason : String) (commission : ℚ) : Portfolio × Option Trade :=
  match p.position with
  | none => (p, none)
  | some pos =>
      let r := Portfolio.close_position_internal { p with position := none }
        pos price timestamp reason commission
      (r.1, some r.2)

/-- `Portfolio::close_hedge_position`. -/
def Portfolio.close_hedge_position (p : Portfolio) (price : ℚ) (timestamp : ℤ)
    (reason : String) (commission : ℚ) : Portfolio × Option Trade :=
  match p.hedge_position with
  | none => (p, none)
  | some pos =>
      let r := Portfolio.close_position_internal { p with hedge_position := none }
        pos price timestamp reason commission
      (r.1, some r.2)

/-- `Portfolio::check_stop_loss`. -/
def Portfolio.check_stop_loss (p : Portfolio) (current_price : ℚ) : Bool :=
  match p.position with
  | some pos =>
      match pos.stop_loss_price with
      | some stop =>
          match pos.side with
          | .Long => decide (current_price ≤ stop)
          | .Short => decide (stop ≤ current_price)
          | .Hedge => false
      | none => false
  | none => false

/-- `Portfolio::calculate_position_size`. -/
def Portfolio.calculate_position_size (p : Portfolio) (price : ℚ)
    (position_size_pct cash_reserve_pct : ℚ) : ℚ :=
  let available := p.cash * (1 - cash_reserve_pct)
  let target_value := available * position_size_pct
  (⌊target_value / price⌋ : ℤ)

/-- One portfolio operation, for stating trace invariants over sequences of
`open_position` / `close_position` / `close_hedge_position` calls. -/
inductive PortfolioOp
  | openPos (symbol : String) (quantity price : ℚ) (side : PositionSide)
      (timestamp : ℤ) (stop_loss_price : Option ℚ) (commission : ℚ)
  | closePos (price : ℚ) (timestamp : ℤ) (reason : String) (commission : ℚ)
  | closeHedgePos (price : ℚ) (timestamp : ℤ) (reason : String) (commission : ℚ)

/-- Apply one operation to the portfolio; a failed open leaves the state
unchanged (the engine treats `InsufficientCash` as a silent no-op). -/
def applyOp (p : Portfolio) : PortfolioOp → Portfolio
  | .openPos symbol quantity price side ts stop comm =>
      match p.open_position symbol quantity price side ts stop comm with
      | .ok q => q
      | .error _ => p
  | .closePos price ts reason comm => (p.close_position price ts reason comm).1
  | .closeHedgePos price ts reason comm =>
      (p.close_hedge_position price ts reason comm).1

/-- Run a sequence of portfolio operations. -/
def runOps (p : Portfolio) (ops : List PortfolioOp) : Portfolio :=
  ops.foldl applyOp p

/-- An operation has bounded close commission in state `p`: for closes that
hit a non-empty slot, the commission does not exceed the position's market
value `quantity * price` at the close price (so proceeds are non-negative).
Opens are always fine. -/
def opOk (p : Portfolio) : PortfolioOp → Bool
  | .openPos _ _ _ _ _ _ _ => true
  | .closePos price _ _ comm =>
      match p.position with
      | none => true
      | some pos => decide (comm ≤ pos.quantity * price)
  | .closeHedgePos price _ _ comm =>
      match p.hedge_position with
      | none => true
      | some pos => decide (comm ≤ pos.quantity * price)

/-- Every operation along the trace has bounded close commission. -/
def opsOk (p : Portfolio) : List PortfolioOp → Bool
  | [] => true
  | op :: rest => opOk p op && opsOk (applyOp p op) rest

/-- Execution-simulator configuration (`common::RealisticExecutionConfig`). -/
structure RealisticExecutionConfig where
  enabled : Bool
  slippage_min_pct : ℚ
  slippage_max_pct : ℚ
  slippage_adverse_probability : ℚ
  spread_enabled : Bool
  spread_base_pct : ℚ
  spread_volatility_multiplier : ℚ
  volume_limit_enabled : Bool
  volume_participation_max_pct : ℚ
  partial_fill_enabled : Bool
  latency_bars : ℕ
  market_impact_enabled : Bool
  market_impact_factor : ℚ
  rejection_enabled : Bool
  rejection_base_probability : ℚ
  rejection_volatility_multiplier : ℚ
deriving DecidableEq

/-- `RealisticExecutionConfig::default` (disabled). -/
def RealisticExecutionConfig.default : RealisticExecutionConfig :=
  { enabled := false
    slippage_min_pct := -(1/1000)
    slippage_max_pct := 2/1000
    slippage_adverse_probability := 7/10
    spread_enabled := true
    spread_base_pct := 5/10000
    spread_volatility_multiplier := 2
    volume_limit_enabled := true
    volume_participation_max_pct := 2/100
    partial_fill_enabled := true
    latency_bars := 0
    market_impact_enabled := true
    market_impact_factor := 1/1000
    rejection_enabled := false
    rejection_base_probability := 5/1000
    rejection_volatility_multiplier := 2 }

/-- `RealisticExecutionConfig::realistic` (enabled, rest default). -/
def RealisticExecutionConfig.realistic : RealisticExecutionConfig :=
  { RealisticExecutionConfig.default with enabled := true }

/-- Breakdown of price adjustments (`PriceAdjustments`). -/
structure PriceAdjustments where
  base_price : ℚ
  slippage : ℚ
  spread : ℚ
  market_impact : ℚ
  total_adjustment : ℚ
deriving DecidableEq

/-- `PriceAdjustments::default` (all zero). -/
def PriceAdjustments.zero : PriceAdjustments := ⟨0, 0, 0, 0, 0⟩

/-- Result of an execution attempt (`ExecutionResult`). -/
structure ExecutionResult where
  executed : Bool
  fill_price : ℚ
  fill_quantity : ℚ
  requested_quantity : ℚ
  price_adjustments : PriceAdjustments
  notes : List String
deriving DecidableEq

/-- Pending order for latency simulation (`PendingOrder`). -/
structure PendingOrder where
  symbol : String
  side : Side
  quantity : ℚ
  signal_bar_index : ℕ
  execute_at_bar_index : ℕ
deriving DecidableEq

/-- Oracle record for one `simulate_execution` call's random draws: each
`rng.gen::<f64>()` is a value in `[0,1)`, and a `gen_range(a..b)` draw is
modelled as `a + u * (b - a)` with a unit draw `u ∈ [0,1)`.  Theorems
quantify over arbitrary draw values. -/
structure ExecDraws where
  reject_draw : ℚ
  adverse_draw : ℚ
  adverse_mag_unit : ℚ
  favorable_mag_unit : ℚ
deriving DecidableEq

/-- Mutable simulator state (`ExecutionSimulator` minus the rng). -/
structure ExecState where
  config : RealisticExecutionConfig
  pending_orders : List PendingOrder
deriving DecidableEq

/-- `ExecutionSimulator::should_reject_order`. -/
def should_reject_order (cfg : RealisticExecutionConfig) (d : ExecDraws)
    (volatility : ℚ) : Bool :=
  if !cfg.rejection_enabled then false
  else
    let rejection_prob := cfg.rejection_base_probability
      + volatility * cfg.rejection_volatility_multiplier
    decide (d.reject_draw < rejection_prob)

/-- `ExecutionSimulator::calculate_slippage`; `gen_range(0.0..max)` becomes
`u * max` and `gen_range(min..0.0)` becomes `min * (1 - u)` for unit draws
`u`. -/
def calculate_slippage (cfg : RealisticExecutionConfig) (d : ExecDraws)
    (price : ℚ) (side : Side) : ℚ :=
  let is_adverse := decide (d.adverse_draw < cfg.slippage_adverse_probability)
  let slippage_pct :=
    if is_adverse then
      let mx := |cfg.slippage_max_pct|
      if mx > 0 then d.adverse_mag_unit * mx else 0
    else
      let mn := cfg.slippage_min_pct
      if mn < 0 then mn * (1 - d.favorable_mag_unit) else 0
  let slippage := price * slippage_pct
  match side with
  | .Buy | .HedgeBuy | .Cover => slippage
  | .Sell | .HedgeSell | .Short => -slippage

/-- `ExecutionSimulator::calculate_spread`. -/
def calculate_spread (cfg : RealisticExecutionConfig) (price : ℚ) (side : Side)
    (volatility : ℚ) : ℚ :=
  if !cfg.spread_enabled then 0
  else
    let volatility_factor := 1 + volatility * cfg.spread_volatility_multiplier
    let half_spread := price * cfg.spread_base_pct * volatility_factor
    match side with
    | .Buy | .HedgeBuy | .Cover => half_spread
    | .Sell | .HedgeSell | .Short => -half_spread

/-- `ExecutionSimulator::calculate_market_impact`. -/
def calculate_market_impact (cfg : RealisticExecutionConfig) (price : ℚ)
    (side : Side) (quantity : ℚ) (bar_volume : ℕ) : ℚ :=
  if !cfg.market_impact_enabled || bar_volume == 0 then 0
  else
    let order_value := quantity * price
    let volume_participation := order_value / ((bar_volume : ℚ) * price)
    let impact_pct := cfg.market_impact_factor * volume_participation ^ 2 * 100
    let impact := price * impact_pct
    match side with
    | .Buy | .HedgeBuy | .Cover => impact
    | .Sell | .HedgeSell | .Short => -impact

/-- `ExecutionSimulator::calculate_fill_quantity`; returns the quantity and
the notes pushed (the source formats the partial-fill share counts into the
note text, which the model elides). -/
def calculate_fill_quantity (cfg : RealisticExecutionConfig) (bar : Bar)
    (quantity : ℚ) : ℚ × List String :=
  if !cfg.volume_limit_enabled then (quantity, [])
  else
    let max_quantity_by_volume :=
      (bar.volume : ℚ) * cfg.volume_participation_max_pct / bar.close
    if quantity ≤ max_quantity_by_volume then (quantity, [])
    else if cfg.partial_fill_enabled then
      (max ((⌊max_quantity_by_volume⌋ : ℤ) : ℚ) 0,
        ["Partial fill due to volume constraints"])
    else (0, ["Order rejected: exceeds volume participation limit"])

/-- `ExecutionSimulator::simulate_execution`. -/
def simulate_execution (cfg : RealisticExecutionConfig) (d : ExecDraws)
    (bar : Bar) (side : Side) (quantity : ℚ) (volatility : Option ℚ) :
    ExecutionResult :=
  if !cfg.enabled then
    { executed := true
      fill_price := bar.close
      fill_quantity := quantity
      requested_quantity := quantity
      price_adjustments := { PriceAdjustments.zero with base_price := bar.close }
      notes := [] }
  else
    let vol := volatility.getD (2/100)
    if should_reject_order cfg d vol then
      { executed := false
        fill_price := 0
        fill_quantity := 0
        requested_quantity := quantity
        price_adjustments := PriceAdjustments.zero
        notes := ["Order rejected due to market conditions"] }
    else
      let fq := calculate_fill_quantity cfg bar quantity
      let fill_quantity := fq.1
      let notes := fq.2
      if fill_quantity ≤ 0 then
        { executed := false
          fill_price := 0
          fill_quantity := 0
          requested_quantity := quantity
          price_adjustments := PriceAdjustments.zero
          notes := notes }
      else
        let base_price := bar.vwap.getD bar.close
        let slippage := calculate_slippage cfg d base_price side
        let spread := calculate_spread cfg base_price side vol
        let market_impact :=
          calculate_market_impact cfg base_price side fill_quantity bar.volume
        let total_adjustment := slippage + spread + market_impact
        let fill_price := base_price + total_adjustment
        let fill_price := min (max fill_price bar.low) bar.high
        { executed := true
          fill_price := fill_price
          fill_quantity := fill_quantity
          requested_quantity := quantity
          price_adjustments :=
            { base_price := base_price
              slippage := slippage
              spread := spread
              market_impact := market_impact
              total_adjustment := total_adjustment }
          notes := notes }

/-- `ExecutionSimulator::queue_order`. -/
def queue_order (s : ExecState) (symbol : String) (side : Side) (quantity : ℚ)
    (current_bar_index : ℕ) : ExecState :=
  let execute_at := current_bar_index + s.config.latency_bars
  { s with pending_orders := s.pending_orders ++
      [{ symbol := symbol
         side := side
         quantity := quantity
         signal_bar_index := current_bar_index
         execute_at_bar_index := execute_at }] }

/-- `ExecutionSimulator::get_executable_orders` (ready orders, new state). -/
def get_executable_orders (s : ExecState) (current_bar_index : ℕ) :
    List PendingOrder × ExecState :=
  let r := s.pending_orders.partition
    (fun o => o.execute_at_bar_index ≤ current_bar_index)
  (r.1, { s with pending_orders := r.2 })

/-- `ExecutionSimulator::has_latency`. -/
def has_latency (cfg : RealisticExecutionConfig) : Bool :=
  cfg.enabled && decide (cfg.latency_bars > 0)

/-- Backtest parameters (`common::BacktestParameters`), restricted to the
fields the engine paths under study read. -/
structure BacktestParameters where
  symbol : String
  inverse_symbol : String
  rsi_period : ℕ
  rsi_oversold : ℚ
  rsi_overbought : ℚ
  sma_period : ℕ
  stop_loss_pct : ℚ
  position_size_pct : ℚ
  cash_reserve_pct : ℚ
  bb_period : ℕ
  bb_std_dev : ℚ
  short_enabled : Bool
  short_stop_loss_pct : ℚ
  short_position_size_pct : ℚ
  initial_capital : ℚ
  commission : ℚ
  execution : RealisticExecutionConfig
deriving DecidableEq

/-- Default parameters (`BacktestParameters::default`). -/
def BacktestParameters.default : BacktestParameters :=
  { symbol := "TQQQ"
    inverse_symbol := "SQQQ"
    rsi_period := 2
    rsi_oversold := 30
    rsi_overbought := 75
    sma_period := 20
    stop_loss_pct := 5/100
    position_size_pct := 9/10
    cash_reserve_pct := 1/10
    bb_period := 20
    bb_std_dev := 2
    short_enabled := true
    short_stop_loss_pct := 5/100
    short_position_size_pct := 3/10
    initial_capital := 10000
    commission := 0
    execution := RealisticExecutionConfig.default }

/-- Trading signal (`common::Signal`), restricted to the fields the engine
consumes (`signal_type` and `reason`). -/
structure Signal where
  signal_type : SignalType
  reason : String
deriving DecidableEq

/-- `BacktestEngine::execute_buy`. -/
def execute_buy (params : BacktestParameters) (p : Portfolio)
    (cfg : RealisticExecutionConfig) (d : ExecDraws) (bar : Bar)
    (volatility : Option ℚ) : Portfolio :=
  let quantity := p.calculate_position_size bar.close
    params.position_size_pct params.cash_reserve_pct
  if quantity < 1 then p
  else
    let exec_result := simulate_execution cfg d bar .Buy quantity volatility
    if !exec_result.executed || exec_result.fill_quantity < 1 then p
    else
      let stop_loss_price :=
        if params.stop_loss_pct > 0 then
          some (exec_result.fill_price * (1 - params.stop_loss_pct))
        else none
      match p.open_position params.symbol exec_result.fill_quantity
        exec_result.fill_price .Long bar.timestamp stop_loss_price
        params.commission with
      | .ok q => q
      | .error _ => p

/-- `BacktestEngine::execute_hedge_buy`. -/
def execute_hedge_buy (params : BacktestParameters) (p : Portfolio)
    (cfg : RealisticExecutionConfig) (d : ExecDraws) (bar : Bar)
    (volatility : Option ℚ) : Portfolio :=
  let quantity := p.calculate_position_size bar.close
    params.short_position_size_pct params.cash_reserve_pct
  if quantity < 1 then p
  else
    let exec_result := simulate_execution cfg d bar .HedgeBuy quantity volatility
    if !exec_result.executed || exec_result.fill_quantity < 1 then p
    else
      let stop_loss_price :=
        if params.short_stop_loss_pct > 0 then
          some (exec_result.fill_price * (1 - params.short_stop_loss_pct))
        else none
      match p.open_position params.inverse_symbol exec_result.fill_quantity
        exec_result.fill_price .Hedge bar.timestamp stop_loss_price
        params.commission with
      | .ok q => q
      | .error _ => p

/-- `BacktestEngine::process_signals`.  The call to
`SignalGenerator::generate` is replaced by its result `signal` (an oracle
argument), so every theorem about this function holds for every possible
generator decision; the single `simulate_execution` call a branch makes
reads the draw record `d`. -/
def process_signals (params : BacktestParameters) (p : Portfolio)
    (es : ExecState) (d : ExecDraws) (bar : Bar) (hedge_bar : Option Bar)
    (signal : Option Signal) (bar_index : ℕ) (volatility : Option ℚ) :
    Portfolio × ExecState :=
  if p.has_position && p.check_stop_loss bar.close then
    let exec_result := simulate_execution es.config d bar .Sell 0 volatility
    let exit_price := if exec_result.executed then exec_result.fill_price
      else bar.close
    ((p.close_position exit_price bar.timestamp "stop loss"
        params.commission).1, es)
  else
    match signal with
    | none => (p, es)
    | some sig =>
      match sig.signal_type with
      | .Buy =>
          if has_latency es.config then
            let quantity := p.calculate_position_size bar.close
              params.position_size_pct params.cash_reserve_pct
            if 1 ≤ quantity then
              (p, queue_order es params.symbol .Buy quantity bar_index)
            else (p, es)
          else (execute_buy params p es.config d bar volatility, es)
      | .Sell =>
          let exec_result := simulate_execution es.config d bar .Sell 0 volatility
          let exit_price := if exec_result.executed then exec_result.fill_price
            else bar.close
          ((p.close_position exit_price bar.timestamp sig.reason
              params.commission).1, es)
      | .HedgeBuy =>
          match hedge_bar with
          | some hbar =>
              if has_latency es.config then
                let quantity := p.calculate_position_size hbar.close
                  params.short_position_size_pct params.cash_reserve_pct
                if 1 ≤ quantity then
                  (p, queue_order es params.inverse_symbol .HedgeBuy quantity
                    bar_index)
                else (p, es)
              else (execute_hedge_buy params p es.config d hbar volatility, es)
          | none => (p, es)
      | .HedgeSell =>
          match hedge_bar with
          | some hbar =>
              let exec_result :=
                simulate_execution es.config d hbar .HedgeSell 0 volatility
              let exit_price := if exec_result.executed then
                  exec_result.fill_price
                else hbar.close
              ((p.close_hedge_position exit_price hbar.timestamp sig.reason
                  params.commission).1, es)
          | none => (p, es)
      | _ => (p, es)

/-- Body of the loop in `BacktestEngine::process_pending_orders` for one
drained order. -/
def process_pending_order (params : BacktestParameters)
    (cfg : RealisticExecutionConfig) (d : ExecDraws) (bar : Bar)
    (hedge_bar : Option Bar) (volatility : Option ℚ) (p : Portfolio)
    (order : PendingOrder) : Portfolio :=
  match order.side with
  | .Buy =>
      let exec_result := simulate_execution cfg d bar .Buy order.quantity
        volatility
      if exec_result.executed && 1 ≤ exec_result.fill_quantity then
        let stop_loss_price :=
          if params.stop_loss_pct > 0 then
            some (exec_result.fill_price * (1 - params.stop_loss_pct))
          else none
        match p.open_position order.symbol exec_result.fill_quantity
          exec_result.fill_price .Long bar.timestamp stop_loss_price
          params.commission with
        | .ok q => q
        | .error _ => p
      else p
  | .HedgeBuy =>
      match hedge_bar with
      | some hbar =>
          let exec_result := simulate_execution cfg d hbar .HedgeBuy
            order.quantity volatility
          if exec_result.executed && 1 ≤ exec_result.fill_quantity then
            let stop_loss_price :=
              if params.short_stop_loss_pct > 0 then
                some (exec_result.fill_price * (1 - params.short_stop_loss_pct))
              else none
            match p.open_position order.symbol exec_result.fill_quantity
              exec_result.fill_price .Hedge hbar.timestamp stop_loss_price
              params.commission with
            | .ok q => q
            | .error _ => p
          else p
      | none => p
  | _ => p

/-- Fold of `process_pending_order` over the drained list; the `j`-th order
reads the `j`-th draw record. -/
def process_orders_list (params : BacktestParameters)
    (cfg : RealisticExecutionConfig) (ds : ℕ → ExecDraws) (bar : Bar)
    (hedge_bar : Option Bar) (volatility : Option ℚ) :
    Portfolio → List PendingOrder → ℕ → Portfolio
  | p, [], _ => p
  | p, o :: rest, j =>
      process_orders_list params cfg ds bar hedge_bar volatility
        (process_pending_order params cfg (ds j) bar hedge_bar volatility p o)
        rest (j + 1)

/-- `BacktestEngine::process_pending_orders`. -/
def process_pending_orders (params : BacktestParameters) (p : Portfolio)
    (es : ExecState) (ds : ℕ → ExecDraws) (bar : Bar) (hedge_bar : Option Bar)
    (bar_index : ℕ) (volatility : Option ℚ) : Portfolio × ExecState :=
  let r := get_executable_orders es bar_index
  (process_orders_list params es.config ds bar hedge_bar volatility p r.1 0,
    r.2)

/-- Drawdown fold in `MetricsCalculator::calculate_drawdown_curve`. -/
def drawdown_go (max_equity : ℚ) : List (ℤ × ℚ) → List (ℤ × ℚ)
  | [] => []
  | (ts, e) :: rest =>
      let m := if e > max_equity then e else max_equity
      let dd := if m > 0 then (m - e) / m * 100 else 0
      (ts, dd) :: drawdown_go m rest

/-- `MetricsCalculator::calculate_drawdown_curve`. -/
def calculate_drawdown_curve (equity_curve : List (ℤ × ℚ)) : List (ℤ × ℚ) :=
  match equity_curve with
  | [] => []
  | e :: _ => drawdown_go e.2 equity_curve

/-- Backtest result (`common::BacktestResult`), restricted to the fields the
claims under study mention (metrics, dates and timing are elided). -/
structure BacktestResult where
  equity_curve : List (ℤ × ℚ)
  drawdown_curve : List (ℤ × ℚ)
  trades : List Trade
  initial_capital : ℚ
  final_equity : ℚ
deriving DecidableEq

/-- `BacktestEngine::empty_result`. -/
def empty_result (params : BacktestParameters) : BacktestResult :=
  { equity_curve := []
    drawdown_curve := []
    trades := []
    initial_capital := params.initial_capital
    final_equity := params.initial_capital }

/-- Placeholder bar for out-of-range list indexing (never reached for the
in-range indices the loop iterates over). -/
def dummyBar : Bar := ⟨0, 0, 0, 0, 0, 0, none⟩

/-- One iteration of the per-bar loop in `BacktestEngine::run`.  `signals`
is the oracle for `SignalGenerator::generate` (a function of the bar index
and the portfolio state at the call), `vols` the oracle for the precomputed
volatility array, and `draws i j` the draw record for the `j`-th
`simulate_execution` call at bar `i` (slot 0 for `process_signals`, slots
1.. for pending orders). -/
def run_bar (params : BacktestParameters)
    (signals : ℕ → Portfolio → Option Signal) (vols : ℕ → Option ℚ)
    (draws : ℕ → ℕ → ExecDraws) (bars : List Bar)
    (hedge_bars : Option (List Bar))
    (st : Portfolio × ExecState × List (ℤ × ℚ)) (i : ℕ) :
    Portfolio × ExecState × List (ℤ × ℚ) :=
  let bar := bars.getD i dummyBar
  let hedge_bar := hedge_bars.bind (fun h => h.get? i)
  let volatility := vols i
  let r1 := process_pending_orders params st.1 st.2.1
    (fun j => draws i (j + 1)) bar hedge_bar i volatility
  let r2 := process_signals params r1.1 r1.2 (draws i 0) bar hedge_bar
    (signals i r1.1) i volatility
  let p3 := r2.1.update_prices bar.close (hedge_bar.map (fun h => h.close))
  (p3, r2.2, st.2.2 ++ [(bar.timestamp, p3.equity)])

/-- `BacktestEngine::run` (with the signal generator, volatility array and
rng draws supplied as oracles; the result's metrics block, dates and timing
are elided). -/
def run (params : BacktestParameters) (bars : List Bar)
    (hedge_bars : Option (List Bar))
    (signals : ℕ → Portfolio → Option Signal) (vols : ℕ → Option ℚ)
    (draws : ℕ → ℕ → ExecDraws) : BacktestResult :=
  let warmup := max params.sma_period params.bb_period
  if bars.length < warmup + 1 then empty_result params
  else
    let init : Portfolio × ExecState × List (ℤ × ℚ) :=
      (Portfolio.new params.initial_capital,
        { config := params.execution, pending_orders := [] }, [])
    let st := (List.range' warmup (bars.length - warmup)).foldl
      (run_bar params signals vols draws bars hedge_bars) init
    let p := st.1
    let p :=
      match bars.getLast? with
      | none => p
      | some last_bar =>
          let p1 := if p.has_position then
              (p.close_position last_bar.close last_bar.timestamp
                "end of backtest" 0).1
            else p
          if p1.has_hedge_position then
            match hedge_bars.bind List.getLast? with
            | some hlast =>
                (p1.close_hedge_position hlast.close hlast.timestamp
                  "end of backtest" 0).1
            | none => p1
          else p1
    { equity_curve := st.2.2
      drawdown_curve := calculate_drawdown_curve st.2.2
      trades := p.trades
      initial_capital := params.initial_capital
      final_equity := p.equity }

/-- Initial average gain and loss in `calculate_rsi` (the arithmetic means
over deltas `prices[i] - prices[i-1]` for `i` in `1..=period`; a delta of 0
falls into the loss branch and adds `|0| = 0`). -/
def rsi_init_avgs (prices : List ℚ) (period : ℕ) : ℚ × ℚ :=
  let deltas := (List.range period).map
    (fun j => prices.getD (j + 1) 0 - prices.getD j 0)
  let gains := (deltas.map (fun d => if d > 0 then d else 0)).sum
  let losses := (deltas.map (fun d => if d > 0 then 0 else |d|)).sum
  (gains / period, losses / period)

/-- One Wilder-smoothing update of the averages in `calculate_rsi`. -/
def rsi_step (alpha ag al delta : ℚ) : ℚ × ℚ :=
  let gain := if delta > 0 then delta else 0
  let loss := if delta < 0 then |delta| else 0
  (ag * (1 - alpha) + gain * alpha, al * (1 - alpha) + loss * alpha)

/-- The RSI value written at an index from the current averages
(`100 - 100/(1+rs)`, with the `avg_loss = 0` convention). -/
def rsi_value (ag al : ℚ) : ℚ :=
  if al = 0 then 100 else 100 - 100 / (1 + ag / al)

/-- Tail of `calculate_rsi`'s output for indices `period+1..n`: walks the
remaining prices carrying the smoothed averages and the previous price. -/
def rsi_tail (alpha : ℚ) : ℚ → ℚ → ℚ → List ℚ → List ℚ
  | _, _, _, [] => []
  | ag, al, prev, price :: rest =>
      let delta := price - prev
      let r := rsi_step alpha ag al delta
      rsi_value r.1 r.2 :: rsi_tail alpha r.1 r.2 price rest

/-- `calculate_rsi` (`indicators/rsi.rs`): warm-up indices carry 50, index
`period` carries the RSI of the initial averages, later indices carry the
Wilder-smoothed values. -/
def calculate_rsi (prices : List ℚ) (period : ℕ) : List ℚ :=
  let n := prices.length
  if n < period + 1 then List.replicate n 50
  else
    let alpha := 1 / (period : ℚ)
    let a := rsi_init_avgs prices period
    List.replicate period 50
      ++ rsi_value a.1 a.2
        :: rsi_tail alpha a.1 a.2 (prices.getD period 0)
          (prices.drop (period + 1))

/-- Value of `MetricsCalculator::calculate_sortino_ratio`: a finite `f64` or
the `f64::INFINITY` the no-downside branch returns. -/
inductive SortinoValue
  | val (x : ℚ)
  | posInf
deriving DecidableEq

/-- `MetricsCalculator::calculate_sortino_ratio`; `rt` stands for
`f64::sqrt`. -/
def calculate_sortino_ratio (rt : ℚ → ℚ) (daily_returns : List ℚ) :
    SortinoValue :=
  if daily_returns = [] then .val 0
  else
    let n : ℚ := daily_returns.length
    let mean_return := daily_returns.sum / n
    let daily_risk_free : ℚ := (5/100) / 252
    let downside_returns :=
      (daily_returns.filter (fun r => r < daily_risk_free)).map
        (fun r => (r - daily_risk_free) ^ 2)
    if downside_returns = [] then .posInf
    else
      let downside_variance := downside_returns.sum / n
      let downside_deviation := rt downside_variance * rt 252
      if downside_deviation = 0 then .val 0
      else
        let annualized_return := mean_return * 252
        .val ((annualized_return - 5/100) / downside_deviation)

/-- Sortino ratio as the specification's words describe it: mean daily
return annualized as `meanDaily * 252 - 0.05`, downside variance summing
`(r - 0.05/252)^2` over only the returns `r < 0.05/252` while dividing by
the total count `N`, deviation scaled by `sqrt 252`; positive infinity when
no return is below `0.05/252`, and 0 when the downside deviation is 0.
Stated for comparison with `calculate_sortino_ratio`. -/
def sortino_ratio_spec (rt : ℚ → ℚ) (daily_returns : List ℚ) : SortinoValue :=
  let daily_risk_free : ℚ := (5/100) / 252
  if daily_returns.all (fun r => !decide (r < daily_risk_free)) then .posInf
  else
    let n : ℚ := daily_returns.length
    let mean_daily := daily_returns.sum / n
    let downside_variance :=
      ((daily_returns.map
        (fun r => if r < daily_risk_free then (r - daily_risk_free) ^ 2
          else 0)).sum) / n
    let downside_deviation := rt downside_variance * rt 252
    if downside_deviation = 0 then .val 0
    else .val ((mean_daily * 252 - 5/100) / downside_deviation)

/-! ## Theorems -/

/-- C2: `openPosition` computes `cost = quantity*price + commission`,
returns `InsufficientCash` exactly when `cost > cash` (leaving the state
unchanged, as `applyOp` shows), and on success debits cash by exactly
`cost` and creates the position in the hedge or long/short slot according
to the side, leaving realized P&L and the trade log untouched. -/
theorem c2_open_position_spec (p : Portfolio) (symbol : String)
    (quantity price commission : ℚ) (side : PositionSide) (ts : ℤ)
    (stop : Option ℚ) :
    p.open_position symbol quantity price side ts stop commission =
      (if quantity * price + commission > p.cash then
        .error (.InsufficientCash (quantity * price + commission) p.cash)
      else
        .ok (let pos : Position :=
              ⟨symbol, quantity, price, ts, price, side, stop⟩
             match side with
             | .Hedge =>
                { p with
                    cash := p.cash - (quantity * price + commission)
                    hedge_position := some pos }
             | _ =>
                { p with
                    cash := p.cash - (quantity * price + commission)
                    position := some pos })) ∧
    (quantity * price + commission > p.cash →
      applyOp p (.openPos symbol quantity price side ts stop commission) = p) := by
  constructor
  · by_cases h : quantity * price + commission > p.cash
    · simp [Portfolio.open_position, h]
    · cases side <;> simp [Portfolio.open_position, h]
  · intro h
    simp [applyOp, Portfolio.open_position, h]

/-- Witness for C2 at concrete inputs: an overdrawing open fails and leaves
the state unchanged; an affordable open debits exactly the cost. -/
theorem c2_open_position_spec_witness :
    ((5 : ℚ) * 3 + 1 > (Portfolio.new 10).cash ∧
      applyOp (Portfolio.new 10) (.openPos "X" 5 3 .Long 0 none 1) =
        Portfolio.new 10) ∧
    (Portfolio.new 10).open_position "X" 2 3 .Long 0 none 1 =
      .ok { Portfolio.new 10 with
              cash := (Portfolio.new 10).cash - (2 * 3 + 1)
              position := some ⟨"X", 2, 3, 0, 3, .Long, none⟩ } :=
  ⟨⟨by norm_num [Portfolio.new],
    (c2_open_position_spec (Portfolio.new 10) "X" 5 3 1 .Long 0 none).2
      (by norm_num [Portfolio.new])⟩,
   ((c2_open_position_spec (Portfolio.new 10) "X" 2 3 1 .Long 0 none).1).trans
      (by rw [if_neg (by norm_num [Portfolio.new])])⟩

/-- C10: `openPosition` can only fail with `InsufficientCash` (never
`PositionAlreadyExists`), and when the targeted slot is already occupied a
successful open silently overwrites it with the new position while still
debiting the full cost, producing no trade (the trade log and realized P&L
fields are unchanged in the resulting record). -/
theorem c10_open_position_overwrites_slot (p : Portfolio) (old : Position)
    (symbol : String) (quantity price commission : ℚ) (ts : ℤ)
    (stop : Option ℚ) :
    (∀ side e, p.open_position symbol quantity price side ts stop commission =
        .error e →
      e = .InsufficientCash (quantity * price + commission) p.cash) ∧
    (p.position = some old → quantity * price + commission ≤ p.cash →
      p.open_position symbol quantity price .Long ts stop commission =
        .ok { p with
                cash := p.cash - (quantity * price + commission)
                position := some ⟨symbol, quantity, price, ts, price, .Long, stop⟩ }) ∧
    (p.hedge_position = some old → quantity * price + commission ≤ p.cash →
      p.open_position symbol quantity price .Hedge ts stop commission =
        .ok { p with
                cash := p.cash - (quantity * price + commission)
                hedge_position :=
                  some ⟨symbol, quantity, price, ts, price, .Hedge, stop⟩ }) := by
  refine ⟨?_, ?_, ?_⟩
  · intro side e he
    by_cases h : quantity * price + commission > p.cash
    · cases side <;> simp [Portfolio.open_position, h] at he <;> exact he.symm
    · cases side <;> simp [Portfolio.open_position, h] at he
  · intro _ h
    simp [Portfolio.open_position, not_lt.mpr h]
  · intro _ h
    simp [Portfolio.open_position, not_lt.mpr h]

/-- Witness for C10: overwriting an existing long slot at concrete values
keeps the trade log empty and drops the old position. -/
theorem c10_open_position_overwrites_slot_witness :
    (let p : Portfolio := { Portfolio.new 10 with
        position := some ⟨"OLD", 1, 4, 0, 4, .Long, none⟩ }
     p.position = some ⟨"OLD", 1, 4, 0, 4, .Long, none⟩ ∧
     (2 : ℚ) * 3 + 1 ≤ p.cash ∧
     p.open_position "X" 2 3 .Long 0 none 1 =
       .ok { p with
               cash := p.cash - (2 * 3 + 1)
               position := some ⟨"X", 2, 3, 0, 3, .Long, none⟩ }) :=
  ⟨rfl, by norm_num [Portfolio.new],
    (c10_open_position_overwrites_slot
      { Portfolio.new 10 with position := some ⟨"OLD", 1, 4, 0, 4, .Long, none⟩ }
      ⟨"OLD", 1, 4, 0, 4, .Long, none⟩ "X" 2 3 1 0 none).2.1 rfl
      (by norm_num [Portfolio.new])⟩

/-- C3: with `enabled = false`, `simulateExecution` is a trivial full fill
at `bar.close` with zero adjustments and no notes, and `hasLatency` is
false whatever `latency_bars` is. -/
theorem c3_disabled_execution_trivial_fill (cfg : RealisticExecutionConfig)
    (d : ExecDraws) (bar : Bar) (side : Side) (quantity : ℚ)
    (volatility : Option ℚ) (h : cfg.enabled = false) :
    simulate_execution cfg d bar side quantity volatility =
      { executed := true
        fill_price := bar.close
        fill_quantity := quantity
        requested_quantity := quantity
        price_adjustments := ⟨bar.close, 0, 0, 0, 0⟩
        notes := [] } ∧
    has_latency cfg = false := by
  constructor
  · simp [simulate_execution, h, PriceAdjustments.zero]
  · simp [has_latency, h]

/-- Witness for C3 at a concrete disabled config (with nonzero
`latency_bars`), bar and order. -/
theorem c3_disabled_execution_trivial_fill_witness :
    (let cfg := { RealisticExecutionConfig.default with latency_bars := 3 }
     cfg.enabled = false ∧
     simulate_execution cfg ⟨0, 0, 0, 0⟩ ⟨0, 10, 11, 9, 10, 1000, none⟩
        .Buy 7 none =
       { executed := true
         fill_price := 10
         fill_quantity := 7
         requested_quantity := 7
         price_adjustments := ⟨10, 0, 0, 0, 0⟩
         notes := [] } ∧
     has_latency cfg = false) :=
  ⟨by decide,
    (c3_disabled_execution_trivial_fill _ ⟨0, 0, 0, 0⟩
      ⟨0, 10, 11, 9, 10, 1000, none⟩ .Buy 7 none (by decide)).1,
    (c3_disabled_execution_trivial_fill _ ⟨0, 0, 0, 0⟩
      ⟨0, 10, 11, 9, 10, 1000, none⟩ .Buy 7 none (by decide)).2⟩

/-- C5: `queueOrder` at bar `k` stores `executeAt = k + latency_bars`;
`getExecutableOrders i` returns exactly the pending orders with
`executeAt ≤ i` and leaves exactly the others pending; with
`latency_bars = 1` an order queued at bar `k` is not returned at bar `k`
and is returned at bar `k + 1`. -/
theorem c5_latency_queue_spec (s : ExecState) (symbol : String) (side : Side)
    (quantity : ℚ) (k i : ℕ) :
    (queue_order s symbol side quantity k).pending_orders =
      s.pending_orders ++ [⟨symbol, side, quantity, k, k + s.config.latency_bars⟩] ∧
    (get_executable_orders s i).1 =
      s.pending_orders.filter (fun o => decide (o.execute_at_bar_index ≤ i)) ∧
    (get_executable_orders s i).2.pending_orders =
      s.pending_orders.filter (fun o => !decide (o.execute_at_bar_index ≤ i)) ∧
    (s.config.latency_bars = 1 → s.pending_orders = [] →
      (get_executable_orders (queue_order s symbol side quantity k) k).1 = [] ∧
      (get_executable_orders (queue_order s symbol side quantity k) k).2.pending_orders =
        [⟨symbol, side, quantity, k, k + 1⟩] ∧
      (get_executable_orders (queue_order s symbol side quantity k) (k + 1)).1 =
        [⟨symbol, side, quantity, k, k + 1⟩]) := by
  refine ⟨rfl, ?_, ?_, ?_⟩
  · simp [get_executable_orders, List.partition_eq_filter_filter]
  · simp only [get_executable_orders, List.partition_eq_filter_filter]
    exact List.filter_congr fun a _ => rfl
  · intro hl hp
    refine ⟨?_, ?_, ?_⟩ <;>
      simp [get_executable_orders, queue_order, hl, hp,
        List.partition_eq_filter_filter, List.filter]

/-- Witness for C5 with one order queued at bar 4 under latency 1. -/
theorem c5_latency_queue_spec_witness :
    (let s : ExecState :=
      { config := { RealisticExecutionConfig.default with latency_bars := 1 }
        pending_orders := [] }
     s.config.latency_bars = 1 ∧ s.pending_orders = [] ∧
     (get_executable_orders (queue_order s "TQQQ" .Buy 5 4) 4).1 = [] ∧
     (get_executable_orders (queue_order s "TQQQ" .Buy 5 4) 5).1 =
       [⟨"TQQQ", .Buy, 5, 4, 5⟩]) :=
  ⟨by decide, by decide,
    ((c5_latency_queue_spec _ "TQQQ" .Buy 5 4 0).2.2.2 (by decide) (by decide)).1,
    ((c5_latency_queue_spec _ "TQQQ" .Buy 5 4 0).2.2.2 (by decide) (by decide)).2.2⟩

/-- C6: with `warmup = max(smaPeriod, bbPeriod)`, a bar series shorter than
`warmup + 1` makes `run` return a result with empty equity and drawdown
curves, no trades and `finalEquity = initialCapital`, rather than an
error. -/
theorem c6_insufficient_bars_empty_result (params : BacktestParameters)
    (bars : List Bar) (hedge_bars : Option (List Bar))
    (signals : ℕ → Portfolio → Option Signal) (vols : ℕ → Option ℚ)
    (draws : ℕ → ℕ → ExecDraws)
    (h : bars.length < max params.sma_period params.bb_period + 1) :
    run params bars hedge_bars signals vols draws =
      { equity_curve := []
        drawdown_curve := []
        trades := []
        initial_capital := params.initial_capital
        final_equity := params.initial_capital } := by
  simp [run, h, empty_result]

/-- Witness for C6: default parameters (warmup 20) on a 5-bar series. -/
theorem c6_insufficient_bars_empty_result_witness :
    ((List.replicate 5 dummyBar).length <
        max BacktestParameters.default.sma_period
          BacktestParameters.default.bb_period + 1) ∧
    run BacktestParameters.default (List.replicate 5 dummyBar) none
        (fun _ _ => none) (fun _ => none) (fun _ _ => ⟨0, 0, 0, 0⟩) =
      { equity_curve := []
        drawdown_curve := []
        trades := []
        initial_capital := 10000
        final_equity := 10000 } :=
  ⟨by decide,
    c6_insufficient_bars_empty_result BacktestParameters.default
      (List.replicate 5 dummyBar) none (fun _ _ => none) (fun _ => none)
      (fun _ _ => ⟨0, 0, 0, 0⟩) (by decide)⟩

/-- A single operation preserves non-negative cash when close commissions
are bounded by the closed position's market value (helper for the
cash-invariant theorem). -/
theorem applyOp_cash_nonneg (p : Portfolio) (op : PortfolioOp)
    (h0 : 0 ≤ p.cash) (h : opOk p op = true) : 0 ≤ (applyOp p op).cash := by
  cases op with
  | openPos symbol quantity price side ts stop comm =>
      by_cases hc : quantity * price + comm > p.cash
      · simp [applyOp, Portfolio.open_position, hc]
        exact h0
      · cases side <;> simp [applyOp, Portfolio.open_position, hc] <;>
          linarith [not_lt.mp hc]
  | closePos price ts reason comm =>
      cases hp : p.position with
      | none => simpa [applyOp, Portfolio.close_position, hp] using h0
      | some pos =>
          have hcomm : comm ≤ pos.quantity * price := by
            simpa [opOk, hp] using h
          simp [applyOp, Portfolio.close_position, hp,
            Portfolio.close_position_internal]
          linarith
  | closeHedgePos price ts reason comm =>
      cases hp : p.hedge_position with
      | none => simpa [applyOp, Portfolio.close_hedge_position, hp] using h0
      | some pos =>
          have hcomm : comm ≤ pos.quantity * price := by
            simpa [opOk, hp] using h
          simp [applyOp, Portfolio.close_hedge_position, hp,
            Portfolio.close_position_internal]
          linarith

/-- C1 counterexample: the claim that closing a position with any
commission parameter never drives cash negative is false — starting from
non-negative capital 10, opening 1 share at price 1 and closing it at
price 1 with commission 100 leaves cash at -90. -/
theorem c1_cash_nonneg_counterexample :
    0 ≤ (Portfolio.new 10).cash ∧
    (runOps (Portfolio.new 10)
      [.openPos "X" 1 1 .Long 0 none 0, .closePos 1 0 "exit" 100]).cash < 0 := by
  constructor
  · norm_num [Portfolio.new]
  · norm_num [runOps, applyOp, Portfolio.new, Portfolio.open_position,
      Portfolio.close_position, Portfolio.close_position_internal]

/-- C1 (amended): for every sequence of portfolio operations starting from
non-negative cash in which every close hitting a non-empty slot has
commission at most the closed position's `quantity * price` (non-negative
proceeds), cash stays non-negative; opens need no side condition because
overdrawing opens are rejected. -/
theorem c1_cash_nonneg_of_bounded_close_commission (ops : List PortfolioOp) :
    ∀ p : Portfolio, 0 ≤ p.cash → opsOk p ops = true →
      0 ≤ (runOps p ops).cash := by
  induction ops with
  | nil => intro p h0 _; exact h0
  | cons op rest ih =>
      intro p h0 h
      rw [opsOk, Bool.and_eq_true] at h
      exact ih (applyOp p op) (applyOp_cash_nonneg p op h0 h.1) h.2

/-- Witness for the amended C1: a concrete open/close/open/close-hedge
sequence with bounded close commissions keeps cash non-negative. -/
theorem c1_cash_nonneg_witness :
    0 ≤ (Portfolio.new 10).cash ∧
    opsOk (Portfolio.new 10)
      [.openPos "X" 2 3 .Long 0 none 1, .closePos 4 1 "tp" 2,
       .openPos "H" 1 5 .Hedge 2 none 0, .closeHedgePos 5 3 "hx" 5] = true ∧
    0 ≤ (runOps (Portfolio.new 10)
      [.openPos "X" 2 3 .Long 0 none 1, .closePos 4 1 "tp" 2,
       .openPos "H" 1 5 .Hedge 2 none 0, .closeHedgePos 5 3 "hx" 5]).cash :=
  ⟨by norm_num [Portfolio.new],
   by norm_num [opsOk, opOk, applyOp, Portfolio.new, Portfolio.open_position,
      Portfolio.close_position, Portfolio.close_hedge_position,
      Portfolio.close_position_internal],
   c1_cash_nonneg_of_bounded_close_commission _ (Portfolio.new 10)
     (by norm_num [Portfolio.new])
     (by norm_num [opsOk, opOk, applyOp, Portfolio.new,
        Portfolio.open_position, Portfolio.close_position,
        Portfolio.close_hedge_position, Portfolio.close_position_internal])⟩

/-- C4: for a well-formed bar (`low ≤ close ≤ high`), whenever
`simulateExecution` reports `executed = true` the fill price lies in
`[bar.low, bar.high]` — via the final clamp on the realistic path, and
because the trivial fill is at `bar.close` on the disabled path. -/
theorem c4_fill_price_within_bar_range (cfg : RealisticExecutionConfig)
    (d : ExecDraws) (bar : Bar) (side : Side) (quantity : ℚ)
    (volatility : Option ℚ) (hlc : bar.low ≤ bar.close)
    (hch : bar.close ≤ bar.high)
    (hx : (simulate_execution cfg d bar side quantity volatility).executed
      = true) :
    bar.low ≤ (simulate_execution cfg d bar side quantity volatility).fill_price ∧
    (simulate_execution cfg d bar side quantity volatility).fill_price
      ≤ bar.high := by
  have hlh : bar.low ≤ bar.high := le_trans hlc hch
  by_cases he : cfg.enabled = true
  · simp only [simulate_execution, he, Bool.not_true, Bool.false_eq_true,
      if_false] at hx ⊢
    split at hx
    · simp at hx
    · split at hx
      · simp at hx
      · next h1 h2 =>
          simp only [if_neg h1, if_neg h2]
          exact ⟨le_min (le_max_right _ _) hlh, min_le_right _ _⟩
  · have he2 : cfg.enabled = false := by simpa using he
    simp [simulate_execution, he2]
    exact ⟨hlc, hch⟩

/-- Witness for C4 at a concrete enabled config and well-formed bar where
the order executes. -/
theorem c4_fill_price_within_bar_range_witness :
    ((9 : ℚ) ≤ 10 ∧ (10 : ℚ) ≤ 11 ∧
      (simulate_execution RealisticExecutionConfig.realistic ⟨1, 1, 0, 0⟩
        ⟨0, 10, 11, 9, 10, 1000, none⟩ .Buy 1 none).executed = true) ∧
    (9 : ℚ) ≤ (simulate_execution RealisticExecutionConfig.realistic
        ⟨1, 1, 0, 0⟩ ⟨0, 10, 11, 9, 10, 1000, none⟩ .Buy 1 none).fill_price ∧
    (simulate_execution RealisticExecutionConfig.realistic ⟨1, 1, 0, 0⟩
        ⟨0, 10, 11, 9, 10, 1000, none⟩ .Buy 1 none).fill_price ≤ 11 :=
  ⟨⟨by norm_num, by norm_num,
    by norm_num [simulate_execution, RealisticExecutionConfig.realistic,
      RealisticExecutionConfig.default, should_reject_order,
      calculate_fill_quantity]⟩,
   c4_fill_price_within_bar_range RealisticExecutionConfig.realistic
     ⟨1, 1, 0, 0⟩ ⟨0, 10, 11, 9, 10, 1000, none⟩ .Buy 1 none (by norm_num)
     (by norm_num)
     (by norm_num [simulate_execution, RealisticExecutionConfig.realistic,
        RealisticExecutionConfig.default, should_reject_order,
        calculate_fill_quantity])⟩

/-- Helper: a zero-quantity request always computes fill quantity 0,
whatever the volume-limit configuration. -/
theorem calculate_fill_quantity_zero (cfg : RealisticExecutionConfig)
    (bar : Bar) : (calculate_fill_quantity cfg bar 0).1 = 0 := by
  simp only [calculate_fill_quantity]
  by_cases h1 : !cfg.volume_limit_enabled
  · simp [h1]
  · simp only [h1, Bool.false_eq_true, if_false]
    by_cases h2 : (0 : ℚ) ≤ (bar.volume : ℚ) * cfg.volume_participation_max_pct / bar.close
    · simp [h2]
    · have hneg := not_le.mp h2
      have hfl : ((⌊(bar.volume : ℚ) * cfg.volume_participation_max_pct / bar.close⌋ : ℤ) : ℚ) ≤ 0 :=
        le_trans (Int.floor_le _) (le_of_lt hneg)
      by_cases h3 : cfg.partial_fill_enabled
      · simp [h2, h3, max_eq_right hfl]
      · simp [h2, h3]

/-- Helper: with realistic execution enabled, a zero-quantity request is
never reported as executed (either rejected or fill quantity 0). -/
theorem zero_quantity_not_executed (cfg : RealisticExecutionConfig)
    (d : ExecDraws) (bar : Bar) (side : Side) (volatility : Option ℚ)
    (he : cfg.enabled = true) :
    (simulate_execution cfg d bar side 0 volatility).executed = false := by
  simp only [simulate_execution, he, Bool.not_true, Bool.false_eq_true,
    if_false]
  split
  · rfl
  · rw [if_pos (le_of_eq (calculate_fill_quantity_zero cfg bar))]

/-- C9: the engine passes quantity 0 to the execution simulator on every
exit path (stop-loss pre-check, `Sell`, `HedgeSell`); with realistic
execution enabled such a request is never executed, so each of those paths
closes the position exactly at the bar's close price — slippage, spread and
market impact never touch exit prices. -/
theorem c9_zero_quantity_exits_fall_back_to_close
    (params : BacktestParameters) (p : Portfolio) (es : ExecState)
    (d : ExecDraws) (bar hbar : Bar) (hedge_bar : Option Bar)
    (signal : Option Signal) (reason : String) (bar_index : ℕ)
    (volatility : Option ℚ) (side : Side) :
    (es.config.enabled = true →
      (simulate_execution es.config d bar side 0 volatility).executed = false) ∧
    (es.config.enabled = true →
      (p.has_position && p.check_stop_loss bar.close) = true →
      process_signals params p es d bar hedge_bar signal bar_index volatility =
        ((p.close_position bar.close bar.timestamp "stop loss"
            params.commission).1, es)) ∧
    (es.config.enabled = true →
      (p.has_position && p.check_stop_loss bar.close) = false →
      process_signals params p es d bar hedge_bar (some ⟨.Sell, reason⟩)
          bar_index volatility =
        ((p.close_position bar.close bar.timestamp reason
            params.commission).1, es)) ∧
    (es.config.enabled = true →
      (p.has_position && p.check_stop_loss bar.close) = false →
      process_signals params p es d bar (some hbar) (some ⟨.HedgeSell, reason⟩)
          bar_index volatility =
        ((p.close_hedge_position hbar.close hbar.timestamp reason
            params.commission).1, es)) := by
  refine ⟨fun he => zero_quantity_not_executed es.config d bar side volatility he,
    fun he hc => ?_, fun he hc => ?_, fun he hc => ?_⟩
  · simp [process_signals, hc,
      zero_quantity_not_executed es.config d bar .Sell volatility he]
  · simp [process_signals, hc,
      zero_quantity_not_executed es.config d bar .Sell volatility he]
  · simp [process_signals, hc,
      zero_quantity_not_executed es.config d hbar .HedgeSell volatility he]

/-- Witness for C9: concrete enabled simulator; a triggered stop-loss, a
`Sell` signal and a `HedgeSell` signal all close at the bar's close. -/
theorem c9_zero_quantity_exits_witness :
    (let es : ExecState := ⟨RealisticExecutionConfig.realistic, []⟩
     let pos : Position := ⟨"X", 1, 10, 0, 10, .Long, some 12⟩
     let pstop : Portfolio := { Portfolio.new 100 with position := some pos }
     let bar : Bar := ⟨0, 10, 11, 9, 10, 1000, none⟩
     (simulate_execution es.config ⟨0, 0, 0, 0⟩ bar .Sell 0 none).executed
        = false ∧
     process_signals BacktestParameters.default pstop es ⟨0, 0, 0, 0⟩ bar
        none none 0 none =
       ((pstop.close_position bar.close bar.timestamp "stop loss"
           BacktestParameters.default.commission).1, es) ∧
     process_signals BacktestParameters.default (Portfolio.new 100) es
        ⟨0, 0, 0, 0⟩ bar none (some ⟨.Sell, "tp"⟩) 0 none =
       (((Portfolio.new 100).close_position bar.close bar.timestamp "tp"
           BacktestParameters.default.commission).1, es) ∧
     process_signals BacktestParameters.default (Portfolio.new 100) es
        ⟨0, 0, 0, 0⟩ bar (some bar) (some ⟨.HedgeSell, "hx"⟩) 0 none =
       (((Portfolio.new 100).close_hedge_position bar.close bar.timestamp "hx"
           BacktestParameters.default.commission).1, es)) :=
  ⟨(c9_zero_quantity_exits_fall_back_to_close BacktestParameters.default
      (Portfolio.new 100) ⟨RealisticExecutionConfig.realistic, []⟩ ⟨0, 0, 0, 0⟩
      ⟨0, 10, 11, 9, 10, 1000, none⟩ ⟨0, 10, 11, 9, 10, 1000, none⟩ none none
      "tp" 0 none .Sell).1 rfl,
   (c9_zero_quantity_exits_fall_back_to_close BacktestParameters.default
      { Portfolio.new 100 with position := some ⟨"X", 1, 10, 0, 10, .Long, some 12⟩ }
      ⟨RealisticExecutionConfig.realistic, []⟩ ⟨0, 0, 0, 0⟩
      ⟨0, 10, 11, 9, 10, 1000, none⟩ ⟨0, 10, 11, 9, 10, 1000, none⟩ none none
      "tp" 0 none .Sell).2.1 rfl
      (by norm_num [Portfolio.has_position, Portfolio.check_stop_loss]),
   (c9_zero_quantity_exits_fall_back_to_close BacktestParameters.default
      (Portfolio.new 100) ⟨RealisticExecutionConfig.realistic, []⟩ ⟨0, 0, 0, 0⟩
      ⟨0, 10, 11, 9, 10, 1000, none⟩ ⟨0, 10, 11, 9, 10, 1000, none⟩ none none
      "tp" 0 none .Sell).2.2.1 rfl
      (by norm_num [Portfolio.has_position, Portfolio.new]),
   (c9_zero_quantity_exits_fall_back_to_close BacktestParameters.default
      (Portfolio.new 100) ⟨RealisticExecutionConfig.realistic, []⟩ ⟨0, 0, 0, 0⟩
      ⟨0, 10, 11, 9, 10, 1000, none⟩ ⟨0, 10, 11, 9, 10, 1000, none⟩ none none
      "hx" 0 none .Sell).2.2.2 rfl
      (by norm_num [Portfolio.has_position, Portfolio.new])⟩

/-- Helper: `rsi_value` of non-negative averages lies in `[0, 100]`. -/
theorem rsi_value_bounds (ag al : ℚ) (hag : 0 ≤ ag) (hal : 0 ≤ al) :
    0 ≤ rsi_value ag al ∧ rsi_value ag al ≤ 100 := by
  unfold rsi_value
  by_cases h : al = 0
  · simp [h]
  · have hal2 : 0 < al := lt_of_le_of_ne hal (Ne.symm h)
    have hrs : 0 ≤ ag / al := div_nonneg hag hal
    have h2 : 100 / (1 + ag / al) ≤ 100 := div_le_self (by norm_num) (by linarith)
    have h3 : 0 < 100 / (1 + ag / al) := div_pos (by norm_num) (by linarith)
    rw [if_neg h]
    constructor <;> linarith

/-- Helper: one Wilder update keeps both averages non-negative. -/
theorem rsi_step_nonneg (alpha ag al delta : ℚ) (ha : 0 ≤ alpha)
    (ha1 : alpha ≤ 1) (hag : 0 ≤ ag) (hal : 0 ≤ al) :
    0 ≤ (rsi_step alpha ag al delta).1 ∧ 0 ≤ (rsi_step alpha ag al delta).2 := by
  have hgain : 0 ≤ (if delta > 0 then delta else 0) := by
    by_cases hd : delta > 0 <;> simp [hd] <;> linarith
  have hloss : 0 ≤ (if delta < 0 then |delta| else 0) := by
    by_cases hd : delta < 0 <;> simp [hd]
  unfold rsi_step
  exact ⟨add_nonneg (mul_nonneg hag (by linarith)) (mul_nonneg hgain ha),
    add_nonneg (mul_nonneg hal (by linarith)) (mul_nonneg hloss ha)⟩

/-- Helper: every smoothed RSI value lies in `[0, 100]`. -/
theorem rsi_tail_bounds (alpha : ℚ) (ha : 0 ≤ alpha) (ha1 : alpha ≤ 1) :
    ∀ (rest : List ℚ) (ag al prev : ℚ), 0 ≤ ag → 0 ≤ al →
      ∀ x ∈ rsi_tail alpha ag al prev rest, 0 ≤ x ∧ x ≤ 100 := by
  intro rest
  induction rest with
  | nil => intro ag al prev _ _ x hx; simp [rsi_tail] at hx
  | cons price rest ih =>
      intro ag al prev hag hal x hx
      simp only [rsi_tail] at hx
      have hs := rsi_step_nonneg alpha ag al (price - prev) ha ha1 hag hal
      rcases List.mem_cons.mp hx with h | h
      · exact h ▸ rsi_value_bounds _ _ hs.1 hs.2
      · exact ih _ _ _ hs.1 hs.2 x h

/-- Helper: the initial averages are non-negative. -/
theorem rsi_init_avgs_nonneg (prices : List ℚ) (period : ℕ) :
    0 ≤ (rsi_init_avgs prices period).1 ∧ 0 ≤ (rsi_init_avgs prices period).2 := by
  unfold rsi_init_avgs
  constructor
  · apply div_nonneg _ (Nat.cast_nonneg period)
    apply List.sum_nonneg
    intro x hx
    simp only [List.mem_map] at hx
    obtain ⟨d, _, rfl⟩ := hx
    by_cases hd : d > 0 <;> simp [hd] <;> linarith
  · apply div_nonneg _ (Nat.cast_nonneg period)
    apply List.sum_nonneg
    intro x hx
    simp only [List.mem_map] at hx
    obtain ⟨d, _, rfl⟩ := hx
    by_cases hd : d > 0 <;> simp [hd]

/-- Helper: a chain on consecutive elements gives the relation on `getD`
of adjacent in-range indices. -/
theorem chain_getD_of_chain {R : ℚ → ℚ → Prop} {prices : List ℚ}
    (h : List.Chain' R prices) :
    ∀ j, j + 1 < prices.length → R (prices.getD j 0) (prices.getD (j + 1) 0) := by
  intro j hj
  have hx := List.chain'_iff_get.mp h j (by omega)
  rwa [List.getD_eq_get _ _ (by omega), List.getD_eq_get _ _ hj]

/-- Helper: the relation on adjacent `getD` values yields a chain from
index `k` over the dropped suffix. -/
theorem chain_getD_drop {R : ℚ → ℚ → Prop} (prices : List ℚ)
    (h : ∀ j, j + 1 < prices.length → R (prices.getD j 0) (prices.getD (j + 1) 0)) :
    ∀ n k, prices.length - (k + 1) = n → k < prices.length →
      List.Chain R (prices.getD k 0) (prices.drop (k + 1)) := by
  intro n
  induction n with
  | zero =>
      intro k hn _
      have hd : prices.drop (k + 1) = [] := by
        rw [List.drop_eq_nil_iff_le]
        omega
      rw [hd]
      exact List.Chain.nil
  | succ n ih =>
      intro k hn hk
      have hk1 : k + 1 < prices.length := by omega
      have hdrop : prices.drop (k + 1) =
          prices.getD (k + 1) 0 :: prices.drop (k + 2) := by
        rw [List.getD_eq_get _ _ hk1]
        simpa using List.drop_eq_getElem_cons hk1
      rw [hdrop]
      exact List.Chain.cons (h k hk1) (ih (k + 1) (by omega) hk1)

/-- Helper: along a strictly increasing suffix with zero average loss,
every smoothed RSI value is 100. -/
theorem rsi_tail_all_100 (alpha : ℚ) :
    ∀ (rest : List ℚ) (ag prev : ℚ), List.Chain (· < ·) prev rest →
      ∀ x ∈ rsi_tail alpha ag 0 prev rest, x = 100 := by
  intro rest
  induction rest with
  | nil => intro ag prev _ x hx; simp [rsi_tail] at hx
  | cons price rest ih =>
      intro ag prev hch x hx
      obtain ⟨hlt, hch2⟩ := List.chain_cons.mp hch
      have hstep : rsi_step alpha ag 0 (price - prev) =
          (ag * (1 - alpha) + (price - prev) * alpha, 0) := by
        have h1 : price - prev > 0 := by linarith
        have h2 : ¬ price - prev < 0 := by linarith
        simp [rsi_step, h1, h2]
      simp only [rsi_tail, hstep] at hx
      rcases List.mem_cons.mp hx with h | h
      · simp [h, rsi_value]
      · exact ih _ _ hch2 x h

/-- Helper: along a strictly decreasing suffix with zero average gain and
positive average loss, every smoothed RSI value is 0. -/
theorem rsi_tail_all_0 (alpha : ℚ) (ha : 0 < alpha) (ha1 : alpha ≤ 1) :
    ∀ (rest : List ℚ) (al prev : ℚ), 0 < al → List.Chain (· > ·) prev rest →
      ∀ x ∈ rsi_tail alpha 0 al prev rest, x = 0 := by
  intro rest
  induction rest with
  | nil => intro al prev _ _ x hx; simp [rsi_tail] at hx
  | cons price rest ih =>
      intro al prev hal hch x hx
      obtain ⟨hgt, hch2⟩ := List.chain_cons.mp hch
      have hd : price - prev < 0 := by
        simp only [gt_iff_lt] at hgt
        linarith
      have hstep : rsi_step alpha 0 al (price - prev) =
          (0, al * (1 - alpha) + |price - prev| * alpha) := by
        have h2 : ¬ price - prev > 0 := by linarith
        simp [rsi_step, hd, h2]
      have hal2 : 0 < al * (1 - alpha) + |price - prev| * alpha := by
        have h3 : 0 ≤ al * (1 - alpha) :=
          mul_nonneg (le_of_lt hal) (by linarith)
        have h4 : 0 < |price - prev| * alpha :=
          mul_pos (abs_pos.mpr (by linarith)) ha
        linarith
      simp only [rsi_tail, hstep] at hx
      rcases List.mem_cons.mp hx with h | h
      · rw [h, rsi_value, if_neg (ne_of_gt hal2)]
        simp
      · exact ih _ _ hal2 hch2 x h

/-- Helper: on strictly increasing prices, the initial average loss is 0. -/
theorem rsi_init_loss_zero (prices : List ℚ) (period : ℕ)
    (h : ∀ j, j + 1 < prices.length →
      prices.getD j 0 < prices.getD (j + 1) 0)
    (hlen : period + 1 ≤ prices.length) :
    (rsi_init_avgs prices period).2 = 0 := by
  unfold rsi_init_avgs
  have hz : ∀ x ∈ ((List.range period).map
      (fun j => prices.getD (j + 1) 0 - prices.getD j 0)).map
      (fun d => if d > 0 then 0 else |d|), x = 0 := by
    intro x hx
    simp only [List.mem_map, List.mem_range] at hx
    obtain ⟨d, ⟨j, hj, rfl⟩, rfl⟩ := hx
    have := h j (by omega)
    rw [if_pos (sub_pos.mpr this)]
  simp only []
  rw [List.sum_eq_zero hz, zero_div]

/-- Helper: on strictly decreasing prices, the initial average gain is 0. -/
theorem rsi_init_gain_zero (prices : List ℚ) (period : ℕ)
    (h : ∀ j, j + 1 < prices.length →
      prices.getD j 0 > prices.getD (j + 1) 0)
    (hlen : period + 1 ≤ prices.length) :
    (rsi_init_avgs prices period).1 = 0 := by
  unfold rsi_init_avgs
  have hz : ∀ x ∈ ((List.range period).map
      (fun j => prices.getD (j + 1) 0 - prices.getD j 0)).map
      (fun d => if d > 0 then d else 0), x = 0 := by
    intro x hx
    simp only [List.mem_map, List.mem_range] at hx
    obtain ⟨d, ⟨j, hj, rfl⟩, rfl⟩ := hx
    have := h j (by omega)
    have hd : ¬ prices.getD (j + 1) 0 - prices.getD j 0 > 0 := by
      simp only [gt_iff_lt] at this ⊢
      linarith
    rw [if_neg hd]
  simp only []
  rw [List.sum_eq_zero hz, zero_div]

/-- Helper: on strictly decreasing prices, the initial average loss is
strictly positive (for `period ≥ 1`). -/
theorem rsi_init_loss_pos (prices : List ℚ) (period : ℕ) (hp : 1 ≤ period)
    (h : ∀ j, j + 1 < prices.length →
      prices.getD j 0 > prices.getD (j + 1) 0)
    (hlen : period + 1 ≤ prices.length) :
    0 < (rsi_init_avgs prices period).2 := by
  unfold rsi_init_avgs
  simp only []
  apply div_pos
  · apply List.sum_pos
    · intro x hx
      simp only [List.mem_map, List.mem_range] at hx
      obtain ⟨d, ⟨j, hj, rfl⟩, rfl⟩ := hx
      have := h j (by omega)
      have hd : ¬ prices.getD (j + 1) 0 - prices.getD j 0 > 0 := by
        simp only [gt_iff_lt] at this ⊢
        linarith
      rw [if_neg hd]
      apply abs_pos.mpr
      simp only [gt_iff_lt] at this
      intro hzero
      have : prices.getD (j + 1) 0 = prices.getD j 0 := by linarith [sub_eq_zero.mp hzero]
      linarith
    · simp only [ne_eq, List.map_eq_nil_iff, List.range_eq_nil]
      omega
  · exact_mod_cast Nat.pos_of_ne_zero (by omega)

/-- Helper: a cons list whose every element equals `c` has last element
`c`. -/
theorem getLast?_cons_all_eq {v : ℚ} {t : List ℚ} {c : ℚ}
    (h : ∀ x ∈ v :: t, x = c) : (v :: t).getLast? = some c := by
  have hne : v :: t ≠ [] := List.cons_ne_nil v t
  rw [List.getLast?_eq_getLast_of_ne_nil hne]
  exact congrArg some (h _ (List.getLast_mem hne))

/-- C7: for `period ≥ 1`, RSI of a strictly increasing series of length at
least `period + 1` ends at 100, of a strictly decreasing one at 0, and
every output value of `calculateRsi` lies in `[0, 100]`. -/
theorem c7_rsi_monotone_and_range (prices : List ℚ) (period : ℕ)
    (hp : 1 ≤ period) :
    (List.Chain' (· < ·) prices → period + 1 ≤ prices.length →
      (calculate_rsi prices period).getLast? = some 100) ∧
    (List.Chain' (· > ·) prices → period + 1 ≤ prices.length →
      (calculate_rsi prices period).getLast? = some 0) ∧
    (∀ x ∈ calculate_rsi prices period, 0 ≤ x ∧ x ≤ 100) := by
  have hcast : (0 : ℚ) < (period : ℚ) := by exact_mod_cast Nat.pos_of_ne_zero (by omega)
  have ha : 0 ≤ 1 / (period : ℚ) := by positivity
  have ha1 : 1 / (period : ℚ) ≤ 1 := by
    rw [div_le_one hcast]
    exact_mod_cast hp
  refine ⟨?_, ?_, ?_⟩
  · intro hchain hlen
    have hmono := fun j hj => chain_getD_of_chain hchain j hj
    have hal0 := rsi_init_loss_zero prices period hmono hlen
    unfold calculate_rsi
    rw [if_neg (by omega)]
    rw [List.getLast?_append_cons]
    apply getLast?_cons_all_eq
    intro x hx
    rcases List.mem_cons.mp hx with h | h
    · rw [h, hal0, rsi_value, if_pos rfl]
    · have hchain2 : List.Chain (· < ·) (prices.getD period 0)
          (prices.drop (period + 1)) :=
        chain_getD_drop prices hmono _ period rfl (by omega)
      exact rsi_tail_all_100 _ _ _ _ hchain2 x (hal0 ▸ h)
  · intro hchain hlen
    have hmono := fun j hj => chain_getD_of_chain hchain j hj
    have hag0 := rsi_init_gain_zero prices period hmono hlen
    have halp := rsi_init_loss_pos prices period hp hmono hlen
    unfold calculate_rsi
    rw [if_neg (by omega)]
    rw [List.getLast?_append_cons]
    apply getLast?_cons_all_eq
    intro x hx
    rcases List.mem_cons.mp hx with h | h
    · rw [h, hag0, rsi_value, if_neg (ne_of_gt halp)]
      simp
    · have hchain2 : List.Chain (· > ·) (prices.getD period 0)
          (prices.drop (period + 1)) :=
        chain_getD_drop prices hmono _ period rfl (by omega)
      exact rsi_tail_all_0 _ (by positivity) ha1 _ _ _ halp hchain2 x (hag0 ▸ h)
  · intro x hx
    unfold calculate_rsi at hx
    by_cases hn : prices.length < period + 1
    · rw [if_pos hn] at hx
      rw [List.eq_of_mem_replicate hx]
      norm_num
    · rw [if_neg hn] at hx
      have hinit := rsi_init_avgs_nonneg prices period
      rcases List.mem_append.mp hx with h | h
      · rw [List.eq_of_mem_replicate h]
        norm_num
      · rcases List.mem_cons.mp h with h | h
        · exact h ▸ rsi_value_bounds _ _ hinit.1 hinit.2
        · exact rsi_tail_bounds _ ha ha1 _ _ _ _ hinit.1 hinit.2 x h

/-- Witness for C7: RSI(2) on `[1,2,3,4]` ends at 100, on `[4,3,2,1]` at
0, and the warm-up value 50 of the increasing run is within bounds. -/
theorem c7_rsi_monotone_and_range_witness :
    (List.Chain' (· < ·) ([1, 2, 3, 4] : List ℚ) ∧ 2 + 1 ≤ 4 ∧
      (calculate_rsi [1, 2, 3, 4] 2).getLast? = some 100) ∧
    (List.Chain' (· > ·) ([4, 3, 2, 1] : List ℚ) ∧
      (calculate_rsi [4, 3, 2, 1] 2).getLast? = some 0) ∧
    ((50 : ℚ) ∈ calculate_rsi [1, 2, 3, 4] 2 ∧
      0 ≤ (50 : ℚ) ∧ (50 : ℚ) ≤ 100) :=
  ⟨⟨by norm_num [List.chain'_cons, List.chain'_singleton], by omega,
    (c7_rsi_monotone_and_range [1, 2, 3, 4] 2 (by omega)).1
      (by norm_num [List.chain'_cons, List.chain'_singleton]) (by decide)⟩,
   ⟨by norm_num [List.chain'_cons, List.chain'_singleton],
    (c7_rsi_monotone_and_range [4, 3, 2, 1] 2 (by omega)).2.1
      (by norm_num [List.chain'_cons, List.chain'_singleton]) (by decide)⟩,
   ⟨by decide,
    (c7_rsi_monotone_and_range [1, 2, 3, 4] 2 (by omega)).2.2 50 (by decide)⟩⟩

/-- Helper: summing the squared deviations over the filtered downside
returns equals summing `if`-guarded squared deviations over all returns. -/
theorem sum_filter_map_sq (drf : ℚ) (l : List ℚ) :
    ((l.filter (fun r => r < drf)).map (fun r => (r - drf) ^ 2)).sum =
    (l.map (fun r => if r < drf then (r - drf) ^ 2 else 0)).sum := by
  induction l with
  | nil => simp
  | cons a l ih =>
      by_cases h : a < drf
      · simp [List.filter_cons, h, ih]
      · simp [List.filter_cons, h, ih]

/-- C8: for every non-empty list of daily returns, the code's Sortino
ratio equals the specification formula — numerator `meanDaily*252 - 0.05`,
downside variance summing `(r - 0.05/252)^2` over only returns below
`0.05/252` but divided by total `N`, deviation scaled by `sqrt 252`,
positive infinity when no return is below the daily risk-free rate, 0 when
the downside deviation is 0. -/
theorem c8_sortino_matches_spec (rt : ℚ → ℚ) (l : List ℚ) (h : l ≠ []) :
    calculate_sortino_ratio rt l = sortino_ratio_spec rt l := by
  unfold calculate_sortino_ratio sortino_ratio_spec
  rw [if_neg h]
  by_cases hdown : l.filter (fun r => r < (5 : ℚ)/100/252) = []
  · have hall : l.all (fun r => !decide (r < (5 : ℚ)/100/252)) = true := by
      rw [List.all_eq_true]
      intro r hr
      have := List.filter_eq_nil.mp hdown r hr
      simpa using this
    simp [hdown, hall]
  · have hall : ¬ l.all (fun r => !decide (r < (5 : ℚ)/100/252)) = true := by
      intro hcon
      apply hdown
      rw [List.filter_eq_nil]
      intro r hr
      have := List.all_eq_true.mp hcon r hr
      simpa using this
    have hmapne : (l.filter (fun r => r < (5 : ℚ)/100/252)).map
        (fun r => (r - (5 : ℚ)/100/252) ^ 2) ≠ [] := by
      simpa [List.map_eq_nil_iff] using hdown
    rw [if_neg hmapne, if_neg hall, sum_filter_map_sq]

/-- Witness for C8 at a concrete return list (one return below the daily
risk-free rate, one above) and a concrete stand-in for `sqrt`. -/
theorem c8_sortino_matches_spec_witness :
    (([1/100, -2/100] : List ℚ) ≠ []) ∧
    calculate_sortino_ratio (fun q => q) [1/100, -2/100] =
      sortino_ratio_spec (fun q => q) [1/100, -2/100] :=
  ⟨by simp, c8_sortino_matches_spec (fun q => q) [1/100, -2/100] (by simp)⟩

end Backtest
